import Mathlib

/-!
Verification of the terrain LOD-selection and geodetic data model of the
osgEarth rex terrain engine headers vendored in this repository.

The repository ships the headers (`SelectionInfo.h`, `GeoData.h`,
`TileDrawable` header); the corresponding `.cpp` bodies are not part of the
repository, so every function whose body is missing is modelled from the
specification text, as indicated in its doc comment.  Real numbers of the
C++ code (`double`, `float`) are modelled as rationals `ℚ`, so all
"within floating tolerance" statements become exact equalities.
-/

namespace RexTerrain

/-- Modelled from the spec: the `Profile` class is not part of this
repository; the spec says only that a profile "supplies the root tile's
geographic span (used to derive a base tile radius in world units)", so the
model keeps exactly that: the root tile radius in world units. -/
structure Profile where
  rootRadius : ℚ
deriving Repr, DecidableEq

/-- The `SelectionInfo::LOD` from `SelectionInfo.h`: visibility range and morph
band for one level of detail. -/
structure SelectionLOD where
  visibilityRange : ℚ
  morphStart : ℚ
  morphEnd : ℚ
deriving Repr, DecidableEq

instance : Inhabited SelectionLOD := ⟨⟨0, 0, 0⟩⟩

/-- The `SelectionInfo::_morphStartRatio`, the "fixed constant, e.g. 0.66" of
the spec. -/
def morphStartRatio : ℚ := 66 / 100

/-- The `SelectionInfo` from `SelectionInfo.h`: the LOD table and the first
LOD index. -/
structure SelectionInfo where
  lods : List SelectionLOD
  firstLOD : ℕ
deriving Repr, DecidableEq

/-- Modelled from the spec: the body of `SelectionInfo::initialize` is not
in the repository.  Spec §4.1: "for `lod = maxLod` down to `firstLod`,
compute tile radius at that LOD (root radius / 2^(lod-firstLod)), then
`visibilityRange[lod] = tileRadius * mtrf`.  Morph band:
`morphStart = visibilityRange[lod] * morphStartRatio`,
`morphEnd = visibilityRange[lod]`"; "Fails silently into an empty table if
profile is null"; inconsistent LODs (`maxLod < firstLod`) likewise
"produce an empty/degenerate table rather than crash". -/
def SelectionInfo.initLODTable (firstLod maxLod : ℕ) (profile : Option Profile)
    (mtrf : ℚ) : SelectionInfo :=
  match profile with
  | none => { lods := [], firstLOD := 0 }
  | some p =>
    if maxLod < firstLod then { lods := [], firstLOD := 0 }
    else
      { lods := (List.range (maxLod - firstLod + 1)).map (fun i =>
          let v : ℚ := p.rootRadius / 2 ^ i * mtrf
          { visibilityRange := v, morphStart := v * morphStartRatio, morphEnd := v }),
        firstLOD := firstLod }

/-- The `SelectionInfo::getNumLODs` (inline in the header): size of the table. -/
def SelectionInfo.getNumLODs (si : SelectionInfo) : ℕ := si.lods.length

/-- The `SelectionInfo::getLOD` — the header declares it as returning the entry
for a specific LOD; the table is indexed from `_firstLOD`, and the caller
must guard the range, so out-of-range access is modelled as returning the
default entry. -/
def SelectionInfo.getLOD (si : SelectionInfo) (lod : ℕ) : SelectionLOD :=
  si.lods.getD (lod - si.firstLOD) default

/-- Unfolding lemma: the table entry produced by `initialize` at an
in-range LOD. -/
theorem SelectionInfo.getLOD_initLODTable (firstLod maxLod lod : ℕ) (p : Profile)
    (mtrf : ℚ) (h1 : firstLod ≤ lod) (h2 : lod ≤ maxLod) :
    (SelectionInfo.initLODTable firstLod maxLod (some p) mtrf).getLOD lod =
      { visibilityRange := p.rootRadius / 2 ^ (lod - firstLod) * mtrf,
        morphStart := p.rootRadius / 2 ^ (lod - firstLod) * mtrf * morphStartRatio,
        morphEnd := p.rootRadius / 2 ^ (lod - firstLod) * mtrf } := by
  have hfm : firstLod ≤ maxLod := le_trans h1 h2
  have hlt : lod - firstLod < maxLod - firstLod + 1 := by omega
  simp only [SelectionInfo.initLODTable, if_neg (not_lt.mpr hfm), SelectionInfo.getLOD]
  rw [List.getD_eq_getElem _ _ (by simpa using hlt)]
  simp

/-- C1 counterexample: with `mtrf = 0` every visibility range is `0`, so for
`initialize(0, 1, profile, 0)` with a non-null profile of root radius `1`
the claimed strict decrease `getLOD(0).visibilityRange >
getLOD(1).visibilityRange` fails. -/
theorem C1_counterexample :
    ¬ (((SelectionInfo.initLODTable 0 1 (some ⟨1⟩) 0).getLOD 0).visibilityRange >
       ((SelectionInfo.initLODTable 0 1 (some ⟨1⟩) 0).getLOD 1).visibilityRange) := by
  rw [SelectionInfo.getLOD_initLODTable 0 1 0 ⟨1⟩ 0 (by norm_num) (by norm_num),
      SelectionInfo.getLOD_initLODTable 0 1 1 ⟨1⟩ 0 (by norm_num) (by norm_num)]
  norm_num

/-- C1 (amended): for a `SelectionInfo` initialized with a non-null profile
and `firstLod ≤ maxLod`, provided additionally that the product of the
profile's root tile radius and `mtrf` is positive, the visibility range is
strictly decreasing in the LOD index: for every `lod` in
`[firstLod, maxLod-1]`,
`getLOD(lod).visibilityRange > getLOD(lod+1).visibilityRange`. -/
theorem C1_visibilityRange_strictly_decreasing
    (p : Profile) (mtrf : ℚ) (firstLod maxLod lod : ℕ)
    (hpos : 0 < p.rootRadius * mtrf)
    (h1 : firstLod ≤ lod) (h2 : lod < maxLod) :
    ((SelectionInfo.initLODTable firstLod maxLod (some p) mtrf).getLOD lod).visibilityRange >
    ((SelectionInfo.initLODTable firstLod maxLod (some p) mtrf).getLOD (lod + 1)).visibilityRange := by
  rw [SelectionInfo.getLOD_initLODTable firstLod maxLod lod p mtrf h1 (le_of_lt h2),
      SelectionInfo.getLOD_initLODTable firstLod maxLod (lod + 1) p mtrf (by omega) (by omega)]
  have hstep : lod + 1 - firstLod = (lod - firstLod) + 1 := by omega
  rw [hstep]
  have h2pos : (0 : ℚ) < 2 ^ (lod - firstLod) := by positivity
  have hlt : (2 : ℚ) ^ (lod - firstLod) < 2 ^ ((lod - firstLod) + 1) := by
    rw [pow_succ]
    nlinarith
  have key : p.rootRadius * mtrf / 2 ^ ((lod - firstLod) + 1) <
      p.rootRadius * mtrf / 2 ^ (lod - firstLod) :=
    div_lt_div_of_pos_left hpos h2pos hlt
  calc p.rootRadius / 2 ^ ((lod - firstLod) + 1) * mtrf
      = p.rootRadius * mtrf / 2 ^ ((lod - firstLod) + 1) := by ring
    _ < p.rootRadius * mtrf / 2 ^ (lod - firstLod) := key
    _ = p.rootRadius / 2 ^ (lod - firstLod) * mtrf := by ring

/-- C1 witness: the amended theorem applied at root radius 1, `mtrf = 1`,
`firstLod = 0`, `maxLod = 1`, `lod = 0`. -/
theorem C1_witness :
    (0 : ℚ) < (Profile.mk 1).rootRadius * 1 ∧
    ((SelectionInfo.initLODTable 0 1 (some ⟨1⟩) 1).getLOD 0).visibilityRange >
    ((SelectionInfo.initLODTable 0 1 (some ⟨1⟩) 1).getLOD 1).visibilityRange :=
  ⟨by norm_num,
   C1_visibilityRange_strictly_decreasing ⟨1⟩ 1 0 1 0 (by norm_num) (le_refl 0) one_pos⟩

/-- C2 counterexample: with `mtrf = 0` the morph band collapses, so for
`initialize(0, 0, profile, 0)` with root radius `1` the claimed strict
inequality `getLOD(0)._morphStart < getLOD(0)._morphEnd` fails. -/
theorem C2_counterexample :
    ¬ (((SelectionInfo.initLODTable 0 0 (some ⟨1⟩) 0).getLOD 0).morphStart <
       ((SelectionInfo.initLODTable 0 0 (some ⟨1⟩) 0).getLOD 0).morphEnd) := by
  rw [SelectionInfo.getLOD_initLODTable 0 0 0 ⟨1⟩ 0 (by norm_num) (by norm_num)]
  norm_num

/-- C2 (amended): for a `SelectionInfo` initialized with a non-null profile
and `firstLod ≤ maxLod`, and every `lod` in `[firstLod, maxLod]`,
`getLOD(lod)._morphEnd` equals `getLOD(lod)._visibilityRange`
unconditionally; and whenever the product of the profile's root tile
radius and `mtrf` is positive, also
`getLOD(lod)._morphStart < getLOD(lod)._morphEnd`. -/
theorem C2_morph_band (p : Profile) (mtrf : ℚ) (firstLod maxLod lod : ℕ)
    (h1 : firstLod ≤ lod) (h2 : lod ≤ maxLod) :
    ((SelectionInfo.initLODTable firstLod maxLod (some p) mtrf).getLOD lod).morphEnd =
      ((SelectionInfo.initLODTable firstLod maxLod (some p) mtrf).getLOD lod).visibilityRange ∧
    (0 < p.rootRadius * mtrf →
      ((SelectionInfo.initLODTable firstLod maxLod (some p) mtrf).getLOD lod).morphStart <
        ((SelectionInfo.initLODTable firstLod maxLod (some p) mtrf).getLOD lod).morphEnd) := by
  rw [SelectionInfo.getLOD_initLODTable firstLod maxLod lod p mtrf h1 h2]
  refine ⟨rfl, fun hpos => ?_⟩
  have h2pos : (0 : ℚ) < 2 ^ (lod - firstLod) := by positivity
  have hv : (0 : ℚ) < p.rootRadius / 2 ^ (lod - firstLod) * mtrf := by
    have : p.rootRadius / 2 ^ (lod - firstLod) * mtrf =
        p.rootRadius * mtrf / 2 ^ (lod - firstLod) := by ring
    rw [this]
    exact div_pos hpos h2pos
  have hratio : morphStartRatio < 1 := by norm_num [ morphStartRatio]
  calc p.rootRadius / 2 ^ (lod - firstLod) * mtrf * morphStartRatio
      < p.rootRadius / 2 ^ (lod - firstLod) * mtrf * 1 := by
        exact mul_lt_mul_of_pos_left hratio hv
    _ = p.rootRadius / 2 ^ (lod - firstLod) * mtrf := by ring

/-- C2 witness: the amended theorem applied at root radius 1, `mtrf = 2`,
`firstLod = 0`, `maxLod = 0`, `lod = 0`. -/
theorem C2_witness :
    ((0 : ℕ) ≤ 0 ∧ (0 : ℕ) ≤ 0) ∧
    (((SelectionInfo.initLODTable 0 0 (some ⟨1⟩) 2).getLOD 0).morphEnd =
      ((SelectionInfo.initLODTable 0 0 (some ⟨1⟩) 2).getLOD 0).visibilityRange ∧
     (0 < (Profile.mk 1).rootRadius * 2 →
       ((SelectionInfo.initLODTable 0 0 (some ⟨1⟩) 2).getLOD 0).morphStart <
         ((SelectionInfo.initLODTable 0 0 (some ⟨1⟩) 2).getLOD 0).morphEnd)) :=
  ⟨⟨le_refl 0, le_refl 0⟩, C2_morph_band ⟨1⟩ 2 0 0 0 (le_refl 0) (le_refl 0)⟩

/-- C3: after `initialize(firstLod, maxLod, profile, mtrf)` with a non-null
profile of root radius `R` and `firstLod ≤ lod ≤ maxLod`, the visibility
range at `lod` equals `(R / 2^(lod-firstLod)) * mtrf` exactly; in
particular `initialize(0, 4, profile, 6)` yields
`getLOD(4).visibilityRange = (R / 16) * 6`. -/
theorem C3_visibilityRange_formula (p : Profile) (mtrf : ℚ)
    (firstLod maxLod lod : ℕ) (h1 : firstLod ≤ lod) (h2 : lod ≤ maxLod) :
    ((SelectionInfo.initLODTable firstLod maxLod (some p) mtrf).getLOD lod).visibilityRange =
      p.rootRadius / 2 ^ (lod - firstLod) * mtrf := by
  rw [SelectionInfo.getLOD_initLODTable firstLod maxLod lod p mtrf h1 h2]

/-- C3 witness: the spec's scenario `initialize(0, 4, profile, 6.0)` at root
radius `R = 16` gives `getLOD(4).visibilityRange = (16 / 16) * 6 = 6`. -/
theorem C3_witness :
    (0 : ℕ) ≤ 4 ∧ (4 : ℕ) ≤ 4 ∧
    ((SelectionInfo.initLODTable 0 4 (some ⟨16⟩) 6).getLOD 4).visibilityRange =
      (16 : ℚ) / 16 * 6 :=
  ⟨Nat.zero_le 4, le_refl 4, by
    have h := C3_visibilityRange_formula ⟨16⟩ 6 0 4 4 (Nat.zero_le 4) (le_refl 4)
    rw [h]
    norm_num⟩

/-- C4: `initialize` with a null profile, or with `maxLod < firstLod`,
leaves the LOD table empty: `getNumLODs()` returns `0` afterwards. -/
theorem C4_degenerate_init_empty (firstLod maxLod : ℕ)
    (profile : Option Profile) (mtrf : ℚ)
    (h : profile = none ∨ maxLod < firstLod) :
    (SelectionInfo.initLODTable firstLod maxLod profile mtrf).getNumLODs = 0 := by
  rcases h with h | h
  · subst h
    rfl
  · cases profile with
    | none => rfl
    | some p =>
      simp [SelectionInfo.initLODTable, if_pos h, SelectionInfo.getNumLODs]

/-- C4 witness: a null profile gives an empty table. -/
theorem C4_witness :
    ((none : Option Profile) = none ∨ (3 : ℕ) < 1) ∧
    (SelectionInfo.initLODTable 1 3 none (5 : ℚ)).getNumLODs = 0 :=
  ⟨Or.inl rfl, C4_degenerate_init_empty 1 3 none 5 (Or.inl rfl)⟩

/-- Modelled from the spec: the `SpatialReference` class is not in this
repository; the only property of it that the modelled `GeoExtent`
operations consult is whether the reference is geographic (lat/long). -/
structure SpatialReference where
  geographic : Bool
deriving Repr, DecidableEq

/-- The `GeoExtent` from `GeoData.h`: stored as origin+span
(`_west, _width, _south, _height`), "not raw min/max, to support
antimeridian-crossing extents via modular longitude normalization". -/
structure GeoExtent where
  srs : Option SpatialReference
  west : ℚ
  width : ℚ
  south : ℚ
  height : ℚ
deriving Repr, DecidableEq

/-- Whether the extent's spatial reference is geographic
(`GeoExtent::isGeographic`, body not in the repository: a null SRS is not
geographic). -/
def GeoExtent.isGeographic (e : GeoExtent) : Bool :=
  match e.srs with
  | some s => s.geographic
  | none => false

/-- The `GeoExtent::normalizeX`, modelled from the spec: normalizes a
longitude into `[-180, 180)` ("east=190° → normalized to -170°"). -/
def normalizeX (x : ℚ) : ℚ := x - 360 * ⌊(x + 180) / 360⌋

/-- The `GeoExtent::xMax` (inline in the header): `_west + _width`. -/
def GeoExtent.xMax (e : GeoExtent) : ℚ := e.west + e.width

/-- The `GeoExtent::east` (inline in the header): `normalizeX(_west+_width)`. -/
def GeoExtent.east (e : GeoExtent) : ℚ := normalizeX e.xMax

/-- Modelled from the spec: the corner constructor
`GeoExtent(srs, west, south, east, north)` has no body in the repository.
Spec §4.3: a geographic extent whose east edge is numerically west of its
west edge wraps across the antimeridian ("west=170°, width=20° giving
east=190°"), so the stored width is `east - west + 360` in that case and
`east - west` otherwise. -/
def GeoExtent.make (srs : Option SpatialReference) (west south east north : ℚ) :
    GeoExtent :=
  let geographic := match srs with
    | some s => s.geographic
    | none => false
  let width := if geographic = true ∧ east < west then east - west + 360 else east - west
  { srs := srs, west := west, width := width, south := south, height := north - south }

/-- The `GeoExtent::crossesAntimeridian`, modelled from the spec: "True if the
extent is geographic and crosses the 180 degree meridian", i.e. the west
edge lies west of 180° and the unnormalized east edge lies beyond it. -/
def GeoExtent.crossesAntimeridian (e : GeoExtent) : Bool :=
  e.isGeographic && decide (e.west < 180) && decide (180 < e.xMax)

/-- The `GeoExtent::splitAcrossAntimeridian`, modelled from the spec: "If this
extent crosses the international date line, populates two extents, one for
each side, and returns true" — the first part runs from the west edge to
180°, the second from -180° to the normalized east edge.  The C++ bool
return plus two out-parameters is modelled as an `Option` pair. -/
def GeoExtent.splitAcrossAntimeridian (e : GeoExtent) :
    Option (GeoExtent × GeoExtent) :=
  if e.crossesAntimeridian then
    some ({ srs := e.srs, west := e.west, width := 180 - e.west,
            south := e.south, height := e.height },
          { srs := e.srs, west := -180, width := e.xMax - 180,
            south := e.south, height := e.height })
  else
    none

/-- C5: the geographic extent built from west=170, south=-10, east=-170,
north=10 has width 20 and crosses the antimeridian, and
`splitAcrossAntimeridian` succeeds with two extents neither of which
crosses the antimeridian and whose widths sum to the original width. -/
theorem C5_antimeridian_split :
    (GeoExtent.make (some ⟨true⟩) 170 (-10) (-170) 10).width = 20 ∧
    (GeoExtent.make (some ⟨true⟩) 170 (-10) (-170) 10).crossesAntimeridian = true ∧
    ∃ first second,
      (GeoExtent.make (some ⟨true⟩) 170 (-10) (-170) 10).splitAcrossAntimeridian =
        some (first, second) ∧
      first.crossesAntimeridian = false ∧
      second.crossesAntimeridian = false ∧
      first.width + second.width =
        (GeoExtent.make (some ⟨true⟩) 170 (-10) (-170) 10).width := by
  refine ⟨?_, ?_, ?_⟩
  · norm_num [GeoExtent.make]
  · norm_num [GeoExtent.make, GeoExtent.crossesAntimeridian, GeoExtent.isGeographic,
      GeoExtent.xMax]
  · refine ⟨{ srs := some ⟨true⟩, west := 170, width := 10, south := -10, height := 20 },
      { srs := some ⟨true⟩, west := -180, width := 10, south := -10, height := 20 },
      ?_, ?_, ?_, ?_⟩
    · rw [GeoExtent.splitAcrossAntimeridian, if_pos]
      · norm_num [GeoExtent.make, GeoExtent.xMax]
      · norm_num [GeoExtent.make, GeoExtent.crossesAntimeridian, GeoExtent.isGeographic,
          GeoExtent.xMax]
    · norm_num [GeoExtent.make, GeoExtent.crossesAntimeridian, GeoExtent.isGeographic,
        GeoExtent.xMax]
    · norm_num [GeoExtent.make, GeoExtent.crossesAntimeridian, GeoExtent.isGeographic,
        GeoExtent.xMax]
    · norm_num [GeoExtent.make, GeoExtent.xMax]

/-- The `GeoExtent::yMax` (inline in the header): `_south + _height`. -/
def GeoExtent.yMax (e : GeoExtent) : ℚ := e.south + e.height

/-- The `GeoExtent::contains(x, y)`, modelled from the spec: true exactly when
the point lies within the bounds of the extent (query already expressed in
the extent's SRS). -/
def GeoExtent.containsPoint (e : GeoExtent) (x y : ℚ) : Bool :=
  decide (e.west ≤ x) && decide (x ≤ e.xMax) &&
  decide (e.south ≤ y) && decide (y ≤ e.yMax)

/-- The `osg::HeightField` consumed by `GeoHeightField`: a fixed grid of
height samples, stored row-major. -/
structure HeightField where
  numColumns : ℕ
  numRows : ℕ
  heights : List ℚ
deriving Repr, DecidableEq

/-- Grid lookup with indices clamped to the grid (sampling at the grid
border reads the border sample). -/
def HeightField.getHeight (hf : HeightField) (c r : ℕ) : ℚ :=
  hf.heights.getD
    (min r (hf.numRows - 1) * hf.numColumns + min c (hf.numColumns - 1)) 0

/-- The running-minimum fold the C++ `init()` loop performs over the
samples (empty grid gives 0). -/
def minList : List ℚ → ℚ
  | [] => 0
  | a :: t => t.foldl min a

/-- The running-maximum fold the C++ `init()` loop performs over the
samples (empty grid gives 0). -/
def maxList : List ℚ → ℚ
  | [] => 0
  | a :: t => t.foldl max a

theorem foldl_min_le_init (t : List ℚ) : ∀ a : ℚ, t.foldl min a ≤ a := by
  induction t with
  | nil => intro a; simp
  | cons b t ih =>
    intro a
    simp only [List.foldl_cons]
    exact le_trans (ih (min a b)) (min_le_left a b)

theorem foldl_min_le_of_mem (t : List ℚ) :
    ∀ (a x : ℚ), x ∈ t → t.foldl min a ≤ x := by
  induction t with
  | nil => intro a x hx; cases hx
  | cons b t ih =>
    intro a x hx
    simp only [List.foldl_cons]
    rcases List.mem_cons.mp hx with rfl | hx
    · exact le_trans (foldl_min_le_init t (min a x)) (min_le_right a x)
    · exact ih (min a b) x hx

theorem minList_le_of_mem {l : List ℚ} {x : ℚ} (hx : x ∈ l) : minList l ≤ x := by
  cases l with
  | nil => cases hx
  | cons a t =>
    rcases List.mem_cons.mp hx with rfl | hx
    · exact foldl_min_le_init t x
    · exact foldl_min_le_of_mem t a x hx

theorem init_le_foldl_max (t : List ℚ) : ∀ a : ℚ, a ≤ t.foldl max a := by
  induction t with
  | nil => intro a; simp
  | cons b t ih =>
    intro a
    simp only [List.foldl_cons]
    exact le_trans (le_max_left a b) (ih (max a b))

theorem le_foldl_max_of_mem (t : List ℚ) :
    ∀ (a x : ℚ), x ∈ t → x ≤ t.foldl max a := by
  induction t with
  | nil => intro a x hx; cases hx
  | cons b t ih =>
    intro a x hx
    simp only [List.foldl_cons]
    rcases List.mem_cons.mp hx with rfl | hx
    · exact le_trans (le_max_right a x) (init_le_foldl_max t (max a x))
    · exact ih (max a b) x hx

theorem le_maxList_of_mem {l : List ℚ} {x : ℚ} (hx : x ∈ l) : x ≤ maxList l := by
  cases l with
  | nil => cases hx
  | cons a t =>
    rcases List.mem_cons.mp hx with rfl | hx
    · exact init_le_foldl_max t x
    · exact le_foldl_max_of_mem t a x hx

/-- A clamped grid lookup always reads an actual sample of a grid whose
sample list has the advertised `columns * rows` length. -/
theorem HeightField.getHeight_mem (hf : HeightField)
    (hc : 1 ≤ hf.numColumns) (hr : 1 ≤ hf.numRows)
    (hlen : hf.heights.length = hf.numColumns * hf.numRows) (c r : ℕ) :
    hf.getHeight c r ∈ hf.heights := by
  obtain ⟨c', hc'⟩ : ∃ c', hf.numColumns = c' + 1 := ⟨hf.numColumns - 1, by omega⟩
  obtain ⟨r', hr'⟩ : ∃ r', hf.numRows = r' + 1 := ⟨hf.numRows - 1, by omega⟩
  have hidx : min r (hf.numRows - 1) * hf.numColumns + min c (hf.numColumns - 1) <
      hf.heights.length := by
    rw [hlen, hc', hr']
    have h1 : min r ((r' + 1) - 1) ≤ r' := by omega
    have h2 : min c ((c' + 1) - 1) ≤ c' := by omega
    calc min r ((r' + 1) - 1) * (c' + 1) + min c ((c' + 1) - 1)
        ≤ r' * (c' + 1) + c' := add_le_add (Nat.mul_le_mul_right _ h1) h2
      _ < (c' + 1) * (r' + 1) := by nlinarith
  rw [HeightField.getHeight, List.getD_eq_getElem _ _ hidx]
  exact List.getElem_mem hidx

/-- Linear interpolation between two samples. -/
def lerp (t a b : ℚ) : ℚ := (1 - t) * a + t * b

theorem lerp_bounds {t a b lo hi : ℚ} (ht0 : 0 ≤ t) (ht1 : t ≤ 1)
    (ha : lo ≤ a) (ha' : a ≤ hi) (hb : lo ≤ b) (hb' : b ≤ hi) :
    lo ≤ lerp t a b ∧ lerp t a b ≤ hi := by
  constructor
  · have h1 : (1 - t) * lo ≤ (1 - t) * a :=
      mul_le_mul_of_nonneg_left ha (by linarith)
    have h2 : t * lo ≤ t * b := mul_le_mul_of_nonneg_left hb ht0
    have : (1 - t) * lo + t * lo ≤ (1 - t) * a + t * b := add_le_add h1 h2
    calc lo = (1 - t) * lo + t * lo := by ring
      _ ≤ (1 - t) * a + t * b := this
      _ = lerp t a b := rfl
  · have h1 : (1 - t) * a ≤ (1 - t) * hi :=
      mul_le_mul_of_nonneg_left ha' (by linarith)
    have h2 : t * b ≤ t * hi := mul_le_mul_of_nonneg_left hb' ht0
    calc lerp t a b = (1 - t) * a + t * b := rfl
      _ ≤ (1 - t) * hi + t * hi := add_le_add h1 h2
      _ = hi := by ring

/-- Nearest-neighbor sampling at grid coordinates `(cx, cy)`. -/
def HeightField.sampleNearest (hf : HeightField) (cx cy : ℚ) : ℚ :=
  hf.getHeight (Int.toNat ⌊cx + 1/2⌋) (Int.toNat ⌊cy + 1/2⌋)

/-- Bilinear sampling at grid coordinates `(cx, cy)`: interpolates the four
surrounding samples by the fractional parts of the coordinates. -/
def HeightField.sampleBilinear (hf : HeightField) (cx cy : ℚ) : ℚ :=
  let i := Int.toNat ⌊cx⌋
  let j := Int.toNat ⌊cy⌋
  let tx := cx - (i : ℚ)
  let ty := cy - (j : ℚ)
  lerp ty (lerp tx (hf.getHeight i j) (hf.getHeight (i + 1) j))
          (lerp tx (hf.getHeight i (j + 1)) (hf.getHeight (i + 1) (j + 1)))

/-- The fractional offset against the clamped floor index lies in `[0, 1]`
for nonnegative grid coordinates. -/
theorem fract_toNat_floor_bounds {cx : ℚ} (h : 0 ≤ cx) :
    0 ≤ cx - ((Int.toNat ⌊cx⌋ : ℕ) : ℚ) ∧ cx - ((Int.toNat ⌊cx⌋ : ℕ) : ℚ) ≤ 1 := by
  have hfl : (0 : ℤ) ≤ ⌊cx⌋ := Int.floor_nonneg.mpr h
  have hcast : ((Int.toNat ⌊cx⌋ : ℕ) : ℚ) = ((⌊cx⌋ : ℤ) : ℚ) := by
    exact_mod_cast Int.toNat_of_nonneg hfl
  rw [hcast]
  have h0 := Int.fract_nonneg cx
  have h1 := Int.fract_lt_one cx
  rw [Int.fract] at h0 h1
  exact ⟨h0, by linarith⟩

theorem HeightField.sampleBilinear_bounds (hf : HeightField)
    (hc : 1 ≤ hf.numColumns) (hr : 1 ≤ hf.numRows)
    (hlen : hf.heights.length = hf.numColumns * hf.numRows)
    {cx cy : ℚ} (hx : 0 ≤ cx) (hy : 0 ≤ cy) :
    minList hf.heights ≤ hf.sampleBilinear cx cy ∧
    hf.sampleBilinear cx cy ≤ maxList hf.heights := by
  obtain ⟨htx0, htx1⟩ := fract_toNat_floor_bounds hx
  obtain ⟨hty0, hty1⟩ := fract_toNat_floor_bounds hy
  have hm : ∀ c r : ℕ, minList hf.heights ≤ hf.getHeight c r ∧
      hf.getHeight c r ≤ maxList hf.heights := fun c r =>
    ⟨minList_le_of_mem (hf.getHeight_mem hc hr hlen c r),
     le_maxList_of_mem (hf.getHeight_mem hc hr hlen c r)⟩
  rw [HeightField.sampleBilinear]
  obtain ⟨h1, h1'⟩ := lerp_bounds htx0 htx1
    (hm _ _).1 (hm _ _).2 (hm _ _).1 (hm _ _).2
  obtain ⟨h2, h2'⟩ := lerp_bounds htx0 htx1
    (hm _ _).1 (hm _ _).2 (hm _ _).1 (hm _ _).2
  exact lerp_bounds hty0 hty1 h1 h1' h2 h2'

/-- Interpolation mode of `GeoHeightField::getElevation` (nearest or
bilinear, per the spec). -/
inductive ElevationInterpolation
  | nearest
  | bilinear
deriving Repr, DecidableEq

/-- The `GeoHeightField` from `GeoData.h`: a heightfield bound to a georeferenced
extent, with min/max height cached once at construction. -/
structure GeoHeightField where
  heightField : HeightField
  extent : GeoExtent
  minHeight : ℚ
  maxHeight : ℚ
deriving Repr, DecidableEq

/-- The `GeoHeightField(hf, extent)` constructor together with its `init()`:
computes the cached min/max height by folding over all samples, once, and
never re-derives them. -/
def GeoHeightField.make (hf : HeightField) (extent : GeoExtent) : GeoHeightField :=
  { heightField := hf, extent := extent,
    minHeight := minList hf.heights, maxHeight := maxList hf.heights }

/-- The `GeoHeightField::getMinHeight` (inline in the header): the cached
minimum. -/
def GeoHeightField.getMinHeight (g : GeoHeightField) : ℚ := g.minHeight

/-- The `GeoHeightField::getMaxHeight` (inline in the header): the cached
maximum. -/
def GeoHeightField.getMaxHeight (g : GeoHeightField) : ℚ := g.maxHeight

/-- The `GeoHeightField::getElevation`, modelled from the spec: "takes an
explicit interpolation mode (nearest/bilinear) ...; returns false if the
query point falls outside the extent". Inside the extent, the point is
mapped to grid coordinates and sampled with the requested interpolation;
the C++ bool return plus out-parameter is modelled as an `Option`. -/
def GeoHeightField.getElevation (g : GeoHeightField) (x y : ℚ)
    (interp : ElevationInterpolation) : Option ℚ :=
  if g.extent.containsPoint x y = true then
    let cx := (x - g.extent.west) / g.extent.width *
      ((g.heightField.numColumns : ℚ) - 1)
    let cy := (y - g.extent.south) / g.extent.height *
      ((g.heightField.numRows : ℚ) - 1)
    match interp with
    | .nearest => some (g.heightField.sampleNearest cx cy)
    | .bilinear => some (g.heightField.sampleBilinear cx cy)
  else
    none

/-- C6: for a valid `GeoHeightField` (positive extent spans, at least a
1×1 grid holding exactly `columns * rows` samples), `getElevation` fails on
every query point outside the extent, and at the exact center of the
extent it succeeds with an elevation between the cached `getMinHeight()`
and `getMaxHeight()`, for either interpolation mode. -/
theorem C6_getElevation_extent_and_center (hf : HeightField) (e : GeoExtent)
    (hw : 0 < e.width) (hh : 0 < e.height)
    (hc : 1 ≤ hf.numColumns) (hr : 1 ≤ hf.numRows)
    (hlen : hf.heights.length = hf.numColumns * hf.numRows) :
    (∀ x y interp, e.containsPoint x y = false →
      (GeoHeightField.make hf e).getElevation x y interp = none) ∧
    (∀ interp, ∃ h,
      (GeoHeightField.make hf e).getElevation
        (e.west + e.width / 2) (e.south + e.height / 2) interp = some h ∧
      (GeoHeightField.make hf e).getMinHeight ≤ h ∧
      h ≤ (GeoHeightField.make hf e).getMaxHeight) := by
  constructor
  · intro x y interp hout
    rw [GeoHeightField.getElevation]
    simp only [GeoHeightField.make]
    rw [if_neg (by rw [hout]; simp)]
  · intro interp
    have hcontains :
        e.containsPoint (e.west + e.width / 2) (e.south + e.height / 2) = true := by
      rw [GeoExtent.containsPoint, GeoExtent.xMax, GeoExtent.yMax]
      simp only [Bool.and_eq_true, decide_eq_true_eq]
      refine ⟨⟨⟨by linarith, by linarith⟩, by linarith⟩, by linarith⟩
    have hcx : 0 ≤ (e.west + e.width / 2 - e.west) / e.width *
        ((hf.numColumns : ℚ) - 1) := by
      apply mul_nonneg
      · apply div_nonneg (by linarith) (by linarith)
      · have : (1 : ℚ) ≤ (hf.numColumns : ℚ) := by exact_mod_cast hc
        linarith
    have hcy : 0 ≤ (e.south + e.height / 2 - e.south) / e.height *
        ((hf.numRows : ℚ) - 1) := by
      apply mul_nonneg
      · apply div_nonneg (by linarith) (by linarith)
      · have : (1 : ℚ) ≤ (hf.numRows : ℚ) := by exact_mod_cast hr
        linarith
    rw [GeoHeightField.getElevation]
    simp only [GeoHeightField.make]
    rw [if_pos hcontains]
    cases interp with
    | nearest =>
      refine ⟨_, rfl, ?_, ?_⟩
      · exact minList_le_of_mem (hf.getHeight_mem hc hr hlen _ _)
      · exact le_maxList_of_mem (hf.getHeight_mem hc hr hlen _ _)
    | bilinear =>
      obtain ⟨hlo, hhi⟩ := hf.sampleBilinear_bounds hc hr hlen hcx hcy
      exact ⟨_, rfl, hlo, hhi⟩

/-- C6 witness: a 2×2 heightfield with samples `[1, 2, 3, 4]` over the
extent `[0,10]×[0,10]`; the theorem applies, and the center query indeed
succeeds within the cached bounds. -/
theorem C6_witness :
    ((0 : ℚ) < 10 ∧ (0 : ℚ) < 10 ∧ (1 : ℕ) ≤ 2 ∧ (1 : ℕ) ≤ 2 ∧
      (HeightField.mk 2 2 [1, 2, 3, 4]).heights.length = 2 * 2) ∧
    (∀ interp, ∃ h,
      (GeoHeightField.make (HeightField.mk 2 2 [1, 2, 3, 4])
          (GeoExtent.mk (some ⟨true⟩) 0 10 0 10)).getElevation
        ((0 : ℚ) + 10 / 2) ((0 : ℚ) + 10 / 2) interp = some h ∧
      (GeoHeightField.make (HeightField.mk 2 2 [1, 2, 3, 4])
          (GeoExtent.mk (some ⟨true⟩) 0 10 0 10)).getMinHeight ≤ h ∧
      h ≤ (GeoHeightField.make (HeightField.mk 2 2 [1, 2, 3, 4])
          (GeoExtent.mk (some ⟨true⟩) 0 10 0 10)).getMaxHeight) :=
  ⟨⟨by norm_num, by norm_num, by norm_num, by norm_num, by rfl⟩,
    (C6_getElevation_extent_and_center (HeightField.mk 2 2 [1, 2, 3, 4])
      (GeoExtent.mk (some ⟨true⟩) 0 10 0 10)
      (by norm_num) (by norm_num) (by norm_num) (by norm_num) (by rfl)).2⟩

/-- The `SharedGeometry` referenced by a tile ("underlying geometry,
possibly shared between this tile and other" in the header); its own
definition is not in the repository, so it is modelled as the vertex
buffer the functors traverse. -/
structure SharedGeometry where
  vertices : List (ℚ × ℚ × ℚ)
deriving Repr, DecidableEq

/-- The four `osg::Drawable` functor families that `TileDrawable::supports`
distinguishes. -/
inductive DrawableFunctorKind
  | attributeFunctor
  | constAttributeFunctor
  | primitiveFunctor
  | primitiveIndexFunctor
deriving Repr, DecidableEq

/-- An axis-aligned bounding box (`osg::BoundingBox`). -/
structure BoundingBox where
  xMin : ℚ
  yMin : ℚ
  zMin : ℚ
  xMax : ℚ
  yMax : ℚ
  zMax : ℚ
deriving Repr, DecidableEq

/-- A bounding sphere (`osg::BoundingSphere`).  The C++ radius is a
Euclidean length, which is generally irrational, so the model carries the
squared radius; "radius equals r" statements become `radiusSq = r^2`. -/
structure BoundingSphere where
  cx : ℚ
  cy : ℚ
  cz : ℚ
  radiusSq : ℚ
deriving Repr, DecidableEq

/-- The `TileDrawable` of `src/unnamed/part_000`, keeping the members the
claims touch: the possibly-shared geometry, the tile size, the tile's
world-space footprint (derived in C++ from the tile key and geometry,
which are not in the repository), the elevation raster (its height
samples), the bounding-box-modify callback, and the cached bounding
radius (squared, see `BoundingSphere`). -/
structure TileDrawable where
  geom : Option SharedGeometry
  tileSize : ℕ
  xMin : ℚ
  xMax : ℚ
  yMin : ℚ
  yMax : ℚ
  elevationRaster : Option (List ℚ)
  bboxCB : Option (BoundingBox → BoundingBox)
  bboxRadiusSq : ℚ

/-- The `TileDrawable::supports` overloads, inline in
`src/unnamed/part_000`: every family returns `true` except
`osg::PrimitiveIndexFunctor`, which returns `false` ("indexed functor is
NOT supported since we need to apply elevation dynamically"). -/
def TileDrawable.supports (td : TileDrawable) : DrawableFunctorKind → Bool
  | .attributeFunctor => true
  | .constAttributeFunctor => true
  | .primitiveFunctor => true
  | .primitiveIndexFunctor => false

/-- The `TileDrawable::accept` overloads: `if (_geom.valid())
_geom->accept(f);` — the functor is handed to the referenced shared
geometry exactly when one is referenced.  A functor is modelled as the
function it applies to the visited geometry, and the model returns what
the delegation produced, `none` when no geometry is referenced.  (The
`AttributeFunctor` and `ConstAttributeFunctor` overloads are inline in
`src/unnamed/part_000`; the `PrimitiveFunctor` overload's body is not in
the repository and is modelled from the spec: "Geometry traversal/functor
acceptance is delegated entirely to the referenced shared geometry".) -/
def TileDrawable.accept {α : Type} (td : TileDrawable) (f : SharedGeometry → α) :
    Option α :=
  match td.geom with
  | some g => some (f g)
  | none => none

/-- C8: `supports(osg::PrimitiveIndexFunctor)` is `false` for every
`TileDrawable`, while `supports` for the attribute, const-attribute and
primitive functors is `true`; and `accept` delegates the functor to the
referenced shared geometry when one is present and does nothing when the
reference is null. -/
theorem C8_supports_functors (td : TileDrawable) :
    td.supports .primitiveIndexFunctor = false ∧
    td.supports .attributeFunctor = true ∧
    td.supports .constAttributeFunctor = true ∧
    td.supports .primitiveFunctor = true ∧
    (∀ {α : Type} (f : SharedGeometry → α) (g : SharedGeometry),
      td.geom = some g → td.accept f = some (f g)) ∧
    (∀ {α : Type} (f : SharedGeometry → α),
      td.geom = none → td.accept f = none) := by
  refine ⟨rfl, rfl, rfl, rfl, ?_, ?_⟩
  · intro α f g hg
    rw [TileDrawable.accept, hg]
  · intro α f hg
    rw [TileDrawable.accept, hg]

/-- C8 witness: a concrete `TileDrawable` referencing a one-vertex shared
geometry; `supports` answers as claimed and `accept` hands the functor
that geometry. -/
theorem C8_witness :
    (TileDrawable.mk (some ⟨[(1, 2, 3)]⟩) 17 0 1 0 1 none none 0).supports
        .primitiveIndexFunctor = false ∧
    (TileDrawable.mk (some ⟨[(1, 2, 3)]⟩) 17 0 1 0 1 none none 0).geom =
        some ⟨[(1, 2, 3)]⟩ ∧
    (TileDrawable.mk (some ⟨[(1, 2, 3)]⟩) 17 0 1 0 1 none none 0).accept
        (fun g => g.vertices.length) = some 1 :=
  ⟨(C8_supports_functors _).1, rfl,
    (C8_supports_functors (TileDrawable.mk (some ⟨[(1, 2, 3)]⟩) 17 0 1 0 1
      none none 0)).2.2.2.2.1 (fun g => g.vertices.length) ⟨[(1, 2, 3)]⟩ rfl⟩

/-- The height samples `computeBoundingBox` scans: the elevation raster's
samples, or the all-zero mesh when no raster has been set. -/
def TileDrawable.rasterSamples (td : TileDrawable) : List ℚ :=
  match td.elevationRaster with
  | some s => s
  | none => [0]

/-- The `TileDrawable::computeBoundingBox`, modelled from the spec:
"derives an axis-aligned box in tile-local space by sampling the elevation
raster across the tile footprint ... to find true min/max height, then
applies any registered bounding-box-modify callback". -/
def TileDrawable.computeBoundingBox (td : TileDrawable) : BoundingBox :=
  let box : BoundingBox :=
    { xMin := td.xMin, yMin := td.yMin, zMin := minList td.rasterSamples,
      xMax := td.xMax, yMax := td.yMax, zMax := maxList td.rasterSamples }
  match td.bboxCB with
  | some f => f box
  | none => box

/-- The `TileDrawable::computeBound`, modelled from the spec: "derives a
bounding sphere from the bounding box; caches radius (`_bboxRadius`)" —
the sphere is centered on the box and reaches its corners, and the
returned drawable carries the cached (squared) radius. -/
def TileDrawable.computeBound (td : TileDrawable) : BoundingSphere × TileDrawable :=
  let bb := td.computeBoundingBox
  let s : BoundingSphere :=
    { cx := (bb.xMin + bb.xMax) / 2, cy := (bb.yMin + bb.yMax) / 2,
      cz := (bb.zMin + bb.zMax) / 2,
      radiusSq := ((bb.xMax - bb.xMin) / 2) ^ 2 + ((bb.yMax - bb.yMin) / 2) ^ 2 +
        ((bb.zMax - bb.zMin) / 2) ^ 2 }
  (s, { td with bboxRadiusSq := s.radiusSq })

theorem foldl_min_replicate (h : ℚ) : ∀ m, (List.replicate m h).foldl min h = h := by
  intro m
  induction m with
  | zero => rfl
  | succ m ih =>
    rw [List.replicate_succ, List.foldl_cons, min_self]
    exact ih

theorem foldl_max_replicate (h : ℚ) : ∀ m, (List.replicate m h).foldl max h = h := by
  intro m
  induction m with
  | zero => rfl
  | succ m ih =>
    rw [List.replicate_succ, List.foldl_cons, max_self]
    exact ih

theorem minList_replicate (h : ℚ) (n : ℕ) (hn : 0 < n) :
    minList (List.replicate n h) = h := by
  obtain ⟨m, rfl⟩ : ∃ m, n = m + 1 := ⟨n - 1, by omega⟩
  rw [List.replicate_succ]
  exact foldl_min_replicate h m

theorem maxList_replicate (h : ℚ) (n : ℕ) (hn : 0 < n) :
    maxList (List.replicate n h) = h := by
  obtain ⟨m, rfl⟩ : ∃ m, n = m + 1 := ⟨n - 1, by omega⟩
  rw [List.replicate_succ]
  exact foldl_max_replicate h m

/-- C9 counterexample: the claim omits the bounding-box-modify callback.
A flat tile (constant raster height 5) with footprint `[0,2]×[0,2]` and a
registered callback that inflates the box by 10 in each z direction gets
squared bounding radius `1 + 1 + 100 = 102`, not the squared half-diagonal
`(4 + 4)/4 = 2`. -/
theorem C9_counterexample :
    ¬ ((TileDrawable.mk none 17 0 2 0 2 (some [5])
          (some fun b => { b with zMin := b.zMin - 10, zMax := b.zMax + 10 })
          0).computeBound.1.radiusSq =
        (((2 : ℚ) - 0) ^ 2 + ((2 : ℚ) - 0) ^ 2) / 4) := by
  rw [TileDrawable.computeBound, TileDrawable.computeBoundingBox]
  norm_num [TileDrawable.rasterSamples, minList, maxList]

/-- C9 (amended): for every `TileDrawable` whose elevation raster holds a
constant height `h` (a nonempty flat raster) and which has no
bounding-box-modify callback registered, `computeBound()` returns a sphere
whose squared radius is the squared half-diagonal of the tile's footprint
— independent of `h` — and the returned drawable caches exactly that
value in `_bboxRadius`. -/
theorem C9_computeBound_flat (td : TileDrawable) (h : ℚ) (n : ℕ) (hn : 0 < n)
    (hconst : td.elevationRaster = some (List.replicate n h))
    (hcb : td.bboxCB = none) :
    td.computeBound.1.radiusSq =
      ((td.xMax - td.xMin) ^ 2 + (td.yMax - td.yMin) ^ 2) / 4 ∧
    td.computeBound.2.bboxRadiusSq = td.computeBound.1.radiusSq := by
  have hsamples : td.rasterSamples = List.replicate n h := by
    rw [TileDrawable.rasterSamples, hconst]
  constructor
  · rw [TileDrawable.computeBound, TileDrawable.computeBoundingBox]
    simp only [hsamples, hcb, minList_replicate h n hn, maxList_replicate h n hn]
    ring
  · rfl

/-- C9 witness: a flat tile of height 7 (four samples) with footprint
`[0,3]×[0,4]` and no callback: the squared radius is `(9 + 16)/4`, cached
in the returned drawable. -/
theorem C9_witness :
    (0 < 4 ∧
      (TileDrawable.mk none 17 0 3 0 4 (some [7, 7, 7, 7]) none 0).elevationRaster =
        some (List.replicate 4 7) ∧
      (TileDrawable.mk none 17 0 3 0 4 (some [7, 7, 7, 7]) none 0).bboxCB = none) ∧
    ((TileDrawable.mk none 17 0 3 0 4 (some [7, 7, 7, 7]) none 0).computeBound.1.radiusSq =
        (((3 : ℚ) - 0) ^ 2 + ((4 : ℚ) - 0) ^ 2) / 4 ∧
      (TileDrawable.mk none 17 0 3 0 4 (some [7, 7, 7, 7]) none 0).computeBound.2.bboxRadiusSq =
        (TileDrawable.mk none 17 0 3 0 4 (some [7, 7, 7, 7]) none 0).computeBound.1.radiusSq) :=
  ⟨⟨by norm_num, rfl, rfl⟩,
    C9_computeBound_flat (TileDrawable.mk none 17 0 3 0 4 (some [7, 7, 7, 7]) none 0)
      7 4 (by norm_num) rfl rfl⟩

/-- The altitude mode of a `GeoPoint` (`ALTMODE_ABSOLUTE` /
`ALTMODE_RELATIVE`); the enum itself is declared in a header that is not
part of this repository. -/
inductive AltitudeMode
  | absolute
  | relative
deriving Repr, DecidableEq

/-- The `GeoPoint` of `GeoData.h`: spatial reference, coordinates and
altitude mode. -/
structure GeoPoint where
  srs : Option SpatialReference
  x : ℚ
  y : ℚ
  z : ℚ
  altMode : AltitudeMode
deriving Repr, DecidableEq

/-- The `GeoPoint::isRelative`, inline in the header:
`_altMode == ALTMODE_RELATIVE`. -/
def GeoPoint.isRelative (p : GeoPoint) : Bool := p.altMode = AltitudeMode.relative

/-- Modelled from the spec: the body of the two-argument-coordinate
constructor `GeoPoint(srs, x, y)` is not in the repository; its header
documentation states "The Z defaults to zero with an ALTMODE_RELATIVE
altitude mode (i.e., 0 meters above the terrain)". -/
def GeoPoint.makeXY (srs : Option SpatialReference) (x y : ℚ) : GeoPoint :=
  { srs := srs, x := x, y := y, z := 0, altMode := AltitudeMode.relative }

/-- C10: for every spatial reference and coordinates, the two-argument
constructor `GeoPoint(srs, x, y)` produces a point with `z = 0` whose
altitude mode is `ALTMODE_RELATIVE`, so `isRelative()` returns `true`. -/
theorem C10_makeXY_relative_zero (srs : Option SpatialReference) (x y : ℚ) :
    (GeoPoint.makeXY srs x y).z = 0 ∧
    (GeoPoint.makeXY srs x y).altMode = AltitudeMode.relative ∧
    (GeoPoint.makeXY srs x y).isRelative = true := by
  refine ⟨rfl, rfl, ?_⟩
  rw [GeoPoint.isRelative]
  simp [GeoPoint.makeXY]

end RexTerrain
